import Mathlib

/-!
Verification of the adaptive multi-value retrieval protocol of the
fastly-sdk-rust repository.

The core of this development is a shallow embedding of
`MultiValueHostcall::next` (src/fastly/src/abi.rs, lines 64-172) together
with the status type `FastlyStatus` (src/fastly-shared/src/lib.rs) and the
call-site adapter error mapping used by
`RequestHandle::get_header_names_impl`, `RequestHandle::get_header_values_impl`
and `client_original_header_names_impl` (src/fastly/src/http/request/handle.rs)
with `BufferSizeError` (src/fastly/src/error.rs).

Modelling conventions:
* Bytes are `Nat` (values are only compared for equality against the
  terminator byte, so the 0-255 range does not matter for the properties).
* The `fill_buf` closure is a pure function from the (capacity, cursor) pair
  it receives to the host's response: its status, the `ending_cursor` and
  `nwritten` out-parameters, and the bytes it wrote into the buffer.  In the
  source the closure is a field of the struct that never changes after
  construction, so passing it as an explicit argument to `next` is faithful.
* `BytesMut` capacity is tracked in a `cap` field: `with_capacity n` gives
  capacity `n`, and `reserve n` on an empty buffer guarantees capacity at
  least `n`, modelled as `max cap n` (capacity never shrinks in the model;
  the code only ever relies on the lower bound established by `reserve`).
* `unsafe { set_len(nwritten) }` after a host write makes the buffer's
  content the first `nwritten` bytes the host wrote, modelled as
  `data.take nwritten`.
* Rust panics (`assert!`, `.expect`, `panic!`) are modelled as a distinct
  `panic` outcome carrying an identifier of the source panic message.
-/

/-- Status type `FastlyStatus` from src/fastly-shared/src/lib.rs: a transparent wrapper
around an `i32` code. -/
structure FastlyStatus where
  code : Int
deriving DecidableEq, Repr

/-- Constant `FastlyStatus::OK`, code 0. -/
def FastlyStatus.OK : FastlyStatus := ⟨0⟩

/-- Constant `FastlyStatus::ERROR`, code 1. -/
def FastlyStatus.ERROR : FastlyStatus := ⟨1⟩

/-- Constant `FastlyStatus::BUFLEN` (buffer length error), code 4. -/
def FastlyStatus.BUFLEN : FastlyStatus := ⟨4⟩

/-- Constant `FastlyStatus::NONE`, code 10. -/
def FastlyStatus.NONE : FastlyStatus := ⟨10⟩

/-- Predicate `FastlyStatus::is_ok`: the status equals `OK`. -/
def FastlyStatus.is_ok (s : FastlyStatus) : Bool := s = FastlyStatus.OK

/-- Predicate `FastlyStatus::is_err`: negation of `is_ok`. -/
def FastlyStatus.is_err (s : FastlyStatus) : Bool := !s.is_ok

/-- The response of one invocation of the `fill_buf` closure: the returned
status, the two out-parameters `ending_cursor` (an `i64`) and `nwritten`
(a `usize`), and the bytes the host wrote into the supplied buffer. -/
structure FillResult where
  status : FastlyStatus
  ending_cursor : Int
  nwritten : Nat
  data : List Nat
deriving DecidableEq, Repr

/-- The `fill_buf` closure, as a pure function of the buffer capacity and
cursor passed to it. -/
def Fill : Type := Nat → Nat → FillResult

/-- The mutable state of `MultiValueHostcall` (src/fastly/src/abi.rs,
lines 5-13), minus the `fill_buf` closure (passed separately) and with the
`BytesMut` buffer split into its content (`buf`) and allocation capacity
(`cap`). -/
structure MultiValueHostcall where
  term : Nat
  buf : List Nat
  cap : Nat
  buf_size : Nat
  max_buf_size : Option Nat
  cursor : Nat
  is_done : Bool
deriving DecidableEq, Repr

/-- Constructor `MultiValueHostcall::new` (src/fastly/src/abi.rs, lines 16-34): clamps
the initial buffer size to the max, allocates the buffer with that capacity,
and starts with cursor 0, not done. -/
def MultiValueHostcall.new (term : Nat) (initial_buf_size : Nat)
    (max_buf_size : Option Nat) : MultiValueHostcall :=
  let ibs := match max_buf_size with
    | some max => min initial_buf_size max
    | none => initial_buf_size
  { term := term, buf := [], cap := ibs, buf_size := ibs,
    max_buf_size := max_buf_size, cursor := 0, is_done := false }

/-- Error enum `MultiValueHostcallError` (src/fastly/src/abi.rs, lines 46-56). -/
inductive MultiValueHostcallError where
  | BufferTooSmall (needed_buf_size : Nat)
  | ClosureError (status : FastlyStatus)
deriving DecidableEq, Repr

/-- Identifiers for the panic sites reachable from the code under study,
named after their Rust messages. -/
inductive PanicMsg where
  /-- Rust assert message "adaptive buffer hostcall requested wrong size"
  (abi.rs line 109). -/
  | wrongSizeRetry
  /-- Rust assert message "fill_buf set invalid nwritten: ..." (abi.rs
  line 137). -/
  | invalidNwritten
  /-- Rust assert message "fill_buf set invalid ending_cursor: ..." (abi.rs
  line 150). -/
  | invalidEndingCursor
  /-- Rust expect message "terminator byte was not found" (abi.rs line 166). -/
  | terminatorNotFound
  /-- Rust expect message "maximum buffer size must exist if a buffer size
  error occurs" (handle.rs adapters). -/
  | maxBufSizeExpected
  /-- Adapter panic on `ClosureError` (handle.rs adapters). -/
  | adapterClosureError
  /-- Adapter unwrap on the byte-to-typed-value conversion. -/
  | adapterConversion
deriving DecidableEq, Repr

/-- The observable result of one call to `Iterator::next`:
`done` is `None`, `elem b` is `Some(Ok(b))`, `err e` is `Some(Err(e))`,
and `panic m` is a Rust panic with message identified by `m`. -/
inductive NextOutcome where
  | done
  | elem (bytes : List Nat)
  | err (e : MultiValueHostcallError)
  | panic (msg : PanicMsg)
deriving DecidableEq, Repr

/-- The result of one `next` step: the outcome, the successor state, and an
instrumentation trace of the (capacity, cursor) pairs passed to each
`fill_buf` invocation made during the step. -/
structure StepResult where
  outcome : NextOutcome
  state : MultiValueHostcall
  calls : List (Nat × Nat)
deriving DecidableEq, Repr

/-- The first index of the terminator byte in the buffer:
`self.buf.iter().position(|b| b == &self.term)` (abi.rs lines 162-165). -/
def firstIndexOf (term : Nat) : List Nat → Option Nat
  | [] => none
  | b :: rest => if b = term then some 0 else (firstIndexOf term rest).map (· + 1)

/-- The drain path of `next` (abi.rs lines 159-171): find the first
terminator (its absence is a panic), yield the prefix before it, and advance
the buffer past the terminator. -/
def drainStep (s : MultiValueHostcall) : NextOutcome × MultiValueHostcall :=
  match firstIndexOf s.term s.buf with
  | none => (.panic .terminatorNotFound, s)
  | some ix => (.elem (s.buf.take ix), { s with buf := s.buf.drop (ix + 1) })

/-- The value `u32::MAX` as an `i64`. -/
def u32Max : Int := 4294967295

/-- The code that follows a non-error `fill_buf` result (abi.rs
lines 129-171): the `nwritten == 0` exhaustion check, the
`nwritten <= capacity` assertion guarding `set_len`, the `ending_cursor`
handling, and finally the drain path. -/
def afterFill (s : MultiValueHostcall) (r : FillResult) :
    NextOutcome × MultiValueHostcall :=
  if r.nwritten = 0 then
    (.done, { s with is_done := true })
  else if r.nwritten ≤ s.cap then
    let s := { s with buf := r.data.take r.nwritten }
    if r.ending_cursor < 0 then
      drainStep { s with is_done := true }
    else if r.ending_cursor ≤ u32Max ∧ (s.cursor : Int) < r.ending_cursor then
      drainStep { s with cursor := r.ending_cursor.toNat }
    else
      (.panic .invalidEndingCursor, s)
  else
    (.panic .invalidNwritten, s)

/-- The function `<MultiValueHostcall as Iterator>::next` (abi.rs lines 64-172).
The step also records the (capacity, cursor) arguments of each `fill_buf`
invocation it makes, for stating bounds on the number of host calls. -/
def next (fill : Fill) (s : MultiValueHostcall) : StepResult :=
  if s.buf.isEmpty then
    if s.is_done then ⟨.done, s, []⟩
    else
      let s1 : MultiValueHostcall := { s with cap := max s.cap s.buf_size }
      let r := fill s1.cap s1.cursor
      let call1 := (s1.cap, s1.cursor)
      if r.status.is_err then
        if r.status = FastlyStatus.BUFLEN then
          let buffer_can_grow : Bool :=
            match s1.max_buf_size with
            | some max => decide (r.nwritten < max)
            | none => true
          if buffer_can_grow ∧ r.nwritten ≠ 0 then
            let s2 : MultiValueHostcall :=
              { s1 with buf_size := r.nwritten, cap := max s1.cap r.nwritten }
            let r2 := fill s2.cap s2.cursor
            let call2 := (s2.cap, s2.cursor)
            if r2.status.is_err then
              if r2.status = FastlyStatus.BUFLEN then
                ⟨.panic .wrongSizeRetry, s2, [call1, call2]⟩
              else
                ⟨.err (.ClosureError r2.status), { s2 with is_done := true },
                  [call1, call2]⟩
            else
              let p := afterFill s2 r2
              ⟨p.1, p.2, [call1, call2]⟩
          else
            ⟨.err (.BufferTooSmall r.nwritten), { s1 with is_done := true },
              [call1]⟩
        else
          ⟨.err (.ClosureError r.status), { s1 with is_done := true }, [call1]⟩
      else
        let p := afterFill s1 r
        ⟨p.1, p.2, [call1]⟩
  else
    let p := drainStep s
    ⟨p.1, p.2, []⟩

/-- Repeatedly call `next`, collecting the outcomes of `n` successive calls
and the final state. -/
def nextN (fill : Fill) : Nat → MultiValueHostcall →
    List NextOutcome × MultiValueHostcall
  | 0, s => ([], s)
  | n + 1, s =>
    let r := next fill s
    let p := nextN fill n r.state
    (r.outcome :: p.1, p.2)

/-- The terminator-delimited encoding of a list of elements: each element
followed by one terminator byte (spec section 6, "element encoding"). -/
def encodeElems (term : Nat) : List (List Nat) → List Nat
  | [] => []
  | e :: rest => e ++ term :: encodeElems term rest

/-- A host data source that serves its whole terminator-delimited result set
in one batch when the supplied buffer can hold it (returning a negative
ending cursor), and otherwise reports `BUFLEN` with the required size in
`nwritten`. -/
def oneShotHost (term : Nat) (elts : List (List Nat)) : Fill :=
  fun cap _ =>
    let enc := encodeElems term elts
    if enc.length ≤ cap then ⟨FastlyStatus.OK, -1, enc.length, enc⟩
    else ⟨FastlyStatus.BUFLEN, 0, enc.length, []⟩

theorem firstIndexOf_append (term : Nat) (e rest : List Nat) (he : term ∉ e) :
    firstIndexOf term (e ++ term :: rest) = some e.length := by
  induction e with
  | nil => simp [firstIndexOf]
  | cons a as ih =>
    simp only [List.mem_cons, not_or] at he
    have ha : ¬a = term := fun hh => he.1 hh.symm
    simp [firstIndexOf, ha, ih he.2]

theorem firstIndexOf_eq_none (term : Nat) (l : List Nat) (h : term ∉ l) :
    firstIndexOf term l = none := by
  induction l with
  | nil => rfl
  | cons a as ih =>
    simp only [List.mem_cons, not_or] at h
    have ha : ¬a = term := fun hh => h.1 hh.symm
    simp [firstIndexOf, ha, ih h.2]

theorem firstIndexOf_take (term : Nat) (l : List Nat) (ix : Nat)
    (h : firstIndexOf term l = some ix) : term ∉ l.take ix := by
  induction l generalizing ix with
  | nil => simp [firstIndexOf] at h
  | cons a as ih =>
    by_cases ha : a = term
    · simp [firstIndexOf, ha] at h
      simp [← h]
    · simp only [firstIndexOf, ha, if_false, Option.map_eq_some'] at h
      obtain ⟨j, hj, rfl⟩ := h
      simp only [List.take_succ_cons, List.mem_cons, not_or]
      exact ⟨fun hh => ha hh.symm, ih j hj⟩

theorem take_length_append (e rest : List Nat) : (e ++ rest).take e.length = e := by
  induction e with
  | nil => rfl
  | cons a as ih => simp [ih]

theorem drop_succ_append (e : List Nat) (t : Nat) (rest : List Nat) :
    (e ++ t :: rest).drop (e.length + 1) = rest := by
  induction e with
  | nil => rfl
  | cons a as ih => simp [ih]

/-- The drain step on a buffer that decomposes as an element, the
terminator, and a remainder yields exactly that element and keeps exactly
the remainder. -/
theorem drainStep_decomp (s : MultiValueHostcall) (e rest : List Nat)
    (he : s.term ∉ e) (hbuf : s.buf = e ++ s.term :: rest) :
    drainStep s = (.elem e, { s with buf := rest }) := by
  simp [drainStep, hbuf, firstIndexOf_append s.term e rest he,
    take_length_append, drop_succ_append]

/-- The drain step panics when the buffer has no terminator byte. -/
theorem drainStep_noterm (s : MultiValueHostcall) (h : s.term ∉ s.buf) :
    drainStep s = (.panic .terminatorNotFound, s) := by
  simp [drainStep, firstIndexOf_eq_none s.term s.buf h]

/-- Any element produced by the drain step is terminator-free. -/
theorem drainStep_elem_noterm (s : MultiValueHostcall) (e : List Nat)
    (h : (drainStep s).1 = .elem e) : s.term ∉ e := by
  unfold drainStep at h
  cases hfi : firstIndexOf s.term s.buf with
  | none => simp [hfi] at h
  | some ix =>
    simp only [hfi] at h
    injection h with h
    exact h ▸ firstIndexOf_take s.term s.buf ix hfi

/-- A finished session with an empty buffer takes no host call and yields
end-of-sequence, leaving the state unchanged. -/
theorem next_finished (fill : Fill) (s : MultiValueHostcall)
    (h1 : s.buf = []) (h2 : s.is_done = true) :
    next fill s = ⟨.done, s, []⟩ := by
  simp [next, h1, h2]

/-- On a nonempty buffer decomposing as element / terminator / remainder,
`next` makes no host call and yields the element. -/
theorem next_drain (fill : Fill) (s : MultiValueHostcall) (e rest : List Nat)
    (he : s.term ∉ e) (hbuf : s.buf = e ++ s.term :: rest) :
    next fill s = ⟨.elem e, { s with buf := rest }, []⟩ := by
  have hne : ¬s.buf.isEmpty := by simp [hbuf]
  simp [next, hne, drainStep_decomp s e rest he hbuf]

/-- Draining a finished session whose buffer holds an encoded element list
yields exactly those elements in order, then end-of-sequence. -/
theorem nextN_drain_encoded (fill : Fill) (elts : List (List Nat))
    (s : MultiValueHostcall) (hbuf : s.buf = encodeElems s.term elts)
    (hdone : s.is_done = true) (hterm : ∀ e ∈ elts, s.term ∉ e) :
    (nextN fill (elts.length + 1) s).1 =
      elts.map NextOutcome.elem ++ [NextOutcome.done] := by
  induction elts generalizing s with
  | nil =>
    simp only [encodeElems] at hbuf
    simp [nextN, next_finished fill s hbuf hdone]
  | cons e rest ih =>
    simp only [encodeElems] at hbuf
    have he : s.term ∉ e := hterm e (by simp)
    have hstep := next_drain fill s e (encodeElems s.term rest) he hbuf
    simp only [List.length_cons, nextN, hstep, List.map_cons, List.cons_append]
    congr 1
    exact ih { s with buf := encodeElems s.term rest } rfl hdone
      (fun x hx => hterm x (by simp [hx]))

/-- C1: For every host data source whose result is N terminator-delimited
elements totaling fewer bytes than the reader's `initial_capacity`,
repeatedly calling `next` yields exactly those N elements, in the host's
order, each equal to the original element bytes with the terminator
stripped, followed by end-of-sequence. -/
theorem C1_round_trip (term cap0 : Nat) (elts : List (List Nat))
    (hterm : ∀ e ∈ elts, term ∉ e)
    (hcap : (encodeElems term elts).length < cap0) :
    (nextN (oneShotHost term elts) (elts.length + 1)
        (MultiValueHostcall.new term cap0 none)).1 =
      elts.map NextOutcome.elem ++ [NextOutcome.done] := by
  cases elts with
  | nil =>
    have hfill : oneShotHost term [] cap0 0 =
        ⟨FastlyStatus.OK, -1, 0, []⟩ := by
      simp [oneShotHost, encodeElems]
    simp [nextN, next, MultiValueHostcall.new, hfill, afterFill,
      FastlyStatus.is_err, FastlyStatus.is_ok, encodeElems]
  | cons e rest =>
    have he : term ∉ e := hterm e (by simp)
    have hle : (encodeElems term (e :: rest)).length ≤ cap0 := Nat.le_of_lt hcap
    have hnz : ¬(encodeElems term (e :: rest)).length = 0 := by
      simp [encodeElems]
    have hfill : oneShotHost term (e :: rest) cap0 0 =
        ⟨FastlyStatus.OK, -1, (encodeElems term (e :: rest)).length,
          encodeElems term (e :: rest)⟩ := by
      simp [oneShotHost, hle]
    have hdrain := drainStep_decomp
      ⟨term, encodeElems term (e :: rest), cap0, cap0, none, 0, true⟩
      e (encodeElems term rest) he rfl
    have hfirst : next (oneShotHost term (e :: rest))
        (MultiValueHostcall.new term cap0 none) =
        ⟨.elem e, ⟨term, encodeElems term rest, cap0, cap0, none, 0, true⟩,
          [(cap0, 0)]⟩ := by
      simp [next, MultiValueHostcall.new, hfill, afterFill,
        FastlyStatus.is_err, FastlyStatus.is_ok, hnz, hle,
        List.take_length, hdrain]
    simp only [List.length_cons, nextN, hfirst, List.map_cons,
      List.cons_append, List.cons.injEq, true_and]
    exact nextN_drain_encoded (oneShotHost term (e :: rest)) rest
      ⟨term, encodeElems term rest, cap0, cap0, none, 0, true⟩ rfl rfl
      (fun x hx => hterm x (by simp [hx]))

/-- Witness for C1 with three elements served in one batch. -/
theorem C1_round_trip_witness :
    (nextN (oneShotHost 0 [[1], [2, 2], [3, 3, 3]]) 4
        (MultiValueHostcall.new 0 16 none)).1 =
      [NextOutcome.elem [1], NextOutcome.elem [2, 2],
        NextOutcome.elem [3, 3, 3], NextOutcome.done] :=
  C1_round_trip 0 16 [[1], [2, 2], [3, 3, 3]] (by decide) (by decide)

/-- C2 counterexample: a fill call returning BUFLEN with `nwritten == 0`
does not yield end-of-sequence as the claim states; the code takes the
non-growth branch and yields `BufferTooSmall { needed_buf_size: 0 }`. -/
theorem C2_counterexample :
    (next (fun _ _ => ⟨FastlyStatus.BUFLEN, 0, 0, []⟩)
        (MultiValueHostcall.new 0 16 none)).outcome =
      .err (.BufferTooSmall 0) ∧
    (next (fun _ _ => ⟨FastlyStatus.BUFLEN, 0, 0, []⟩)
        (MultiValueHostcall.new 0 16 none)).outcome ≠ .done := by decide

/-- C2 (amended): if a fill call returns BUFLEN with `bytes_written` equal
to 0, the reader marks the session finished and yields a BufferTooSmall
error with `needed_buf_size` 0 (not end-of-sequence), regardless of whether
a `max_capacity` is configured; every subsequent call yields
end-of-sequence. -/
theorem C2_zero_buflen (fill : Fill) (s : MultiValueHostcall)
    (h1 : s.buf = []) (h2 : s.is_done = false)
    (hr : (fill (max s.cap s.buf_size) s.cursor).status = FastlyStatus.BUFLEN)
    (hn : (fill (max s.cap s.buf_size) s.cursor).nwritten = 0) :
    next fill s = ⟨.err (.BufferTooSmall 0),
      { s with cap := max s.cap s.buf_size, is_done := true },
      [(max s.cap s.buf_size, s.cursor)]⟩ ∧
    next fill (next fill s).state = ⟨.done, (next fill s).state, []⟩ := by
  have hmain : next fill s = ⟨.err (.BufferTooSmall 0),
      { s with cap := max s.cap s.buf_size, is_done := true },
      [(max s.cap s.buf_size, s.cursor)]⟩ := by
    simp [next, h1, h2, hr, hn, FastlyStatus.is_err, FastlyStatus.is_ok,
      FastlyStatus.BUFLEN, FastlyStatus.OK]
  refine ⟨hmain, ?_⟩
  rw [hmain]
  exact next_finished fill _ h1 rfl

/-- Witness for the amended C2, with a configured max_capacity. -/
theorem C2_zero_buflen_witness :
    next (fun _ _ => ⟨FastlyStatus.BUFLEN, 0, 0, []⟩)
        (MultiValueHostcall.new 7 16 (some 8)) =
      ⟨.err (.BufferTooSmall 0),
        { MultiValueHostcall.new 7 16 (some 8) with cap := 8, is_done := true },
        [(8, 0)]⟩ ∧
    next (fun _ _ => ⟨FastlyStatus.BUFLEN, 0, 0, []⟩)
        (next (fun _ _ => ⟨FastlyStatus.BUFLEN, 0, 0, []⟩)
          (MultiValueHostcall.new 7 16 (some 8))).state =
      ⟨.done,
        (next (fun _ _ => ⟨FastlyStatus.BUFLEN, 0, 0, []⟩)
          (MultiValueHostcall.new 7 16 (some 8))).state, []⟩ :=
  C2_zero_buflen (fun _ _ => ⟨FastlyStatus.BUFLEN, 0, 0, []⟩)
    (MultiValueHostcall.new 7 16 (some 8)) rfl rfl rfl rfl

/-- The drain step changes only the buffer content of the state. -/
theorem drainStep_state_fields (s : MultiValueHostcall) :
    (drainStep s).2.term = s.term ∧ (drainStep s).2.cap = s.cap ∧
    (drainStep s).2.buf_size = s.buf_size ∧
    (drainStep s).2.max_buf_size = s.max_buf_size ∧
    (drainStep s).2.is_done = s.is_done := by
  unfold drainStep
  cases firstIndexOf s.term s.buf <;> simp

/-- Handling a successful fill never changes the session's buf_size. -/
theorem afterFill_buf_size (s : MultiValueHostcall) (r : FillResult) :
    (afterFill s r).2.buf_size = s.buf_size := by
  simp only [afterFill]
  repeat' split
  all_goals first
    | rfl
    | exact (drainStep_state_fields _).2.2.1

/-- C3 counterexample: with `max_capacity = 8` and a host whose required
size is exactly 8, the claim predicts a retry that succeeds and yields the
element, but the code (which tests `nwritten < max`, strictly) yields a
BufferTooSmall error after a single host call. -/
theorem C3_counterexample :
    (next
        (fun cap _ => if cap < 8 then ⟨FastlyStatus.BUFLEN, 0, 8, []⟩
          else ⟨FastlyStatus.OK, -1, 8, [1, 1, 1, 1, 1, 1, 1, 0]⟩)
        (MultiValueHostcall.new 0 4 (some 8))).outcome =
      .err (.BufferTooSmall 8) ∧
    (next
        (fun cap _ => if cap < 8 then ⟨FastlyStatus.BUFLEN, 0, 8, []⟩
          else ⟨FastlyStatus.OK, -1, 8, [1, 1, 1, 1, 1, 1, 1, 0]⟩)
        (MultiValueHostcall.new 0 4 (some 8))).outcome ≠
      .elem [1, 1, 1, 1, 1, 1, 1] ∧
    (next
        (fun cap _ => if cap < 8 then ⟨FastlyStatus.BUFLEN, 0, 8, []⟩
          else ⟨FastlyStatus.OK, -1, 8, [1, 1, 1, 1, 1, 1, 1, 0]⟩)
        (MultiValueHostcall.new 0 4 (some 8))).calls.length = 1 := by decide

/-- C3 (amended): when a fill call returns BUFLEN with a nonzero required
size, growth is allowed exactly when there is no max_capacity or the
required size is strictly less than max_capacity; in particular, for a
required size equal to (or exceeding) the configured max_capacity the
reader yields BufferTooSmall with that size and finishes rather than
retrying, while for a strictly smaller required size (or no max) the
reader sets its requested capacity (buf_size) to the required size and
makes exactly one more host call. -/
theorem C3_growth_policy (fill : Fill) (s : MultiValueHostcall) (n : Nat)
    (h1 : s.buf = []) (h2 : s.is_done = false)
    (hr : (fill (max s.cap s.buf_size) s.cursor).status = FastlyStatus.BUFLEN)
    (hn : (fill (max s.cap s.buf_size) s.cursor).nwritten = n)
    (hnz : n ≠ 0) :
    (∀ m, s.max_buf_size = some m → m ≤ n →
      next fill s = ⟨.err (.BufferTooSmall n),
        { s with cap := max s.cap s.buf_size, is_done := true },
        [(max s.cap s.buf_size, s.cursor)]⟩) ∧
    (∀ m, s.max_buf_size = some m → n < m →
      (next fill s).state.buf_size = n ∧ (next fill s).calls.length = 2) ∧
    (s.max_buf_size = none →
      (next fill s).state.buf_size = n ∧ (next fill s).calls.length = 2) := by
  have hretry : ∀ hgrow : (match s.max_buf_size with
      | some m => decide (n < m) | none => true) = true,
      (next fill s).state.buf_size = n ∧ (next fill s).calls.length = 2 := by
    intro hgrow
    simp only [next, h1, h2, hr, hn, hgrow, hnz, FastlyStatus.is_err,
      FastlyStatus.is_ok, FastlyStatus.BUFLEN, FastlyStatus.OK,
      List.isEmpty_nil, if_true, Bool.false_eq_true, if_false,
      FastlyStatus.mk.injEq, ne_eq, not_false_iff, and_true, decide_True,
      Bool.not_true, Bool.not_false, OfNat.ofNat_ne_zero, decide_False,
      and_self, ite_true, ite_false, reduceCtorEq]
    norm_num
    repeat' split
    all_goals first
      | exact ⟨rfl, rfl⟩
      | simp [afterFill_buf_size]
  refine ⟨?_, ?_, ?_⟩
  · intro m hm hle
    have hng : ¬(n < m) := Nat.not_lt.mpr hle
    simp [next, h1, h2, hr, hn, hm, hng, FastlyStatus.is_err,
      FastlyStatus.is_ok, FastlyStatus.BUFLEN, FastlyStatus.OK]
  · intro m hm hlt
    exact hretry (by simp [hm, hlt])
  · intro hm
    exact hretry (by simp [hm])

/-- Witness for the amended C3: required size 8 with max 8 yields the
error; required size 7 with max 8 triggers exactly one retry. -/
theorem C3_growth_policy_witness :
    (next
        (fun cap _ => if cap < 8 then ⟨FastlyStatus.BUFLEN, 0, 8, []⟩
          else ⟨FastlyStatus.OK, -1, 8, [1, 1, 1, 1, 1, 1, 1, 0]⟩)
        (MultiValueHostcall.new 0 4 (some 8))) =
      ⟨.err (.BufferTooSmall 8),
        { MultiValueHostcall.new 0 4 (some 8) with cap := 4, is_done := true },
        [(4, 0)]⟩ :=
  (C3_growth_policy
    (fun cap _ => if cap < 8 then ⟨FastlyStatus.BUFLEN, 0, 8, []⟩
      else ⟨FastlyStatus.OK, -1, 8, [1, 1, 1, 1, 1, 1, 1, 0]⟩)
    (MultiValueHostcall.new 0 4 (some 8)) 8 rfl rfl rfl rfl
    (by decide)).1 8 rfl (by decide)

/-- A finished session with an empty buffer yields end-of-sequence forever,
with no further host calls. -/
theorem nextN_finished (fill : Fill) (k : Nat) (s : MultiValueHostcall)
    (h1 : s.buf = []) (h2 : s.is_done = true) :
    (nextN fill k s).1 = List.replicate k NextOutcome.done := by
  induction k with
  | zero => rfl
  | succ k ih =>
    simp [nextN, next_finished fill s h1 h2, ih, List.replicate_succ]

/-- C4: for a source whose host-reported required size exceeds the
configured max_capacity, the reader yields exactly one BufferTooSmall error
whose needed_buf_size equals the host-reported required size (in a step
that makes exactly one host call), marks the session finished, and every
subsequent call yields end-of-sequence; no panic occurs and no element is
yielded. -/
theorem C4_capacity_exceeded (fill : Fill) (s : MultiValueHostcall)
    (m n : Nat) (h1 : s.buf = []) (h2 : s.is_done = false)
    (hmax : s.max_buf_size = some m)
    (hr : (fill (max s.cap s.buf_size) s.cursor).status = FastlyStatus.BUFLEN)
    (hn : (fill (max s.cap s.buf_size) s.cursor).nwritten = n)
    (hexceed : m < n) :
    next fill s = ⟨.err (.BufferTooSmall n),
      { s with cap := max s.cap s.buf_size, is_done := true },
      [(max s.cap s.buf_size, s.cursor)]⟩ ∧
    ∀ k, (nextN fill k (next fill s).state).1 =
      List.replicate k NextOutcome.done := by
  have hng : ¬(n < m) := Nat.not_lt.mpr (Nat.le_of_lt hexceed)
  have hmain : next fill s = ⟨.err (.BufferTooSmall n),
      { s with cap := max s.cap s.buf_size, is_done := true },
      [(max s.cap s.buf_size, s.cursor)]⟩ := by
    simp [next, h1, h2, hr, hn, hmax, hng, FastlyStatus.is_err,
      FastlyStatus.is_ok, FastlyStatus.BUFLEN, FastlyStatus.OK]
  refine ⟨hmain, fun k => ?_⟩
  rw [hmain]
  exact nextN_finished fill k _ h1 rfl

/-- Witness for C4: required size 9 against max_capacity 5 (the spec's own
"exceeded ceiling" scenario shape). -/
theorem C4_capacity_exceeded_witness :
    next (fun _ _ => ⟨FastlyStatus.BUFLEN, 0, 9, []⟩)
        (MultiValueHostcall.new 0 4 (some 5)) =
      ⟨.err (.BufferTooSmall 9),
        { MultiValueHostcall.new 0 4 (some 5) with cap := 4, is_done := true },
        [(4, 0)]⟩ ∧
    ∀ k, (nextN (fun _ _ => ⟨FastlyStatus.BUFLEN, 0, 9, []⟩) k
        (next (fun _ _ => ⟨FastlyStatus.BUFLEN, 0, 9, []⟩)
          (MultiValueHostcall.new 0 4 (some 5))).state).1 =
      List.replicate k NextOutcome.done :=
  C4_capacity_exceeded (fun _ _ => ⟨FastlyStatus.BUFLEN, 0, 9, []⟩)
    (MultiValueHostcall.new 0 4 (some 5)) 5 9 rfl rfl rfl rfl rfl (by decide)

/-- C5: on a successful fill call, a negative ending_cursor marks the
session finished while the just-filled batch is still drained by this and
subsequent calls; a non-negative ending_cursor must fit in a u32 and be
strictly greater than the input cursor, in which case it becomes the
session's cursor for the next fill; any other non-negative value causes a
panic, not a user-facing error. -/
theorem C5_ending_cursor (fill : Fill) (s : MultiValueHostcall)
    (k : Nat) (e rest : List Nat)
    (h1 : s.buf = []) (h2 : s.is_done = false)
    (hok : (fill (max s.cap s.buf_size) s.cursor).status = FastlyStatus.OK)
    (hn : (fill (max s.cap s.buf_size) s.cursor).nwritten = k)
    (hk : k ≠ 0) (hcap : k ≤ max s.cap s.buf_size)
    (hdata : ((fill (max s.cap s.buf_size) s.cursor).data).take k
      = e ++ s.term :: rest)
    (he : s.term ∉ e) :
    ((fill (max s.cap s.buf_size) s.cursor).ending_cursor < 0 →
      next fill s = ⟨.elem e,
        { s with cap := max s.cap s.buf_size, buf := rest, is_done := true },
        [(max s.cap s.buf_size, s.cursor)]⟩) ∧
    (∀ ec : Int, (fill (max s.cap s.buf_size) s.cursor).ending_cursor = ec →
      0 ≤ ec → ec ≤ u32Max → (s.cursor : Int) < ec →
      next fill s = ⟨.elem e,
        { s with cap := max s.cap s.buf_size, buf := rest, cursor := ec.toNat },
        [(max s.cap s.buf_size, s.cursor)]⟩) ∧
    (∀ ec : Int, (fill (max s.cap s.buf_size) s.cursor).ending_cursor = ec →
      0 ≤ ec → ¬(ec ≤ u32Max ∧ (s.cursor : Int) < ec) →
      (next fill s).outcome = .panic .invalidEndingCursor) ∧
    (∀ e2 rest2, (fill (max s.cap s.buf_size) s.cursor).ending_cursor < 0 →
      rest = e2 ++ s.term :: rest2 → s.term ∉ e2 →
      (next fill (next fill s).state).outcome = .elem e2) := by
  have hd1 := drainStep_decomp
    ⟨s.term, e ++ s.term :: rest, max s.cap s.buf_size, s.buf_size,
      s.max_buf_size, s.cursor, true⟩ e rest he rfl
  have hneg : ∀ hec : (fill (max s.cap s.buf_size) s.cursor).ending_cursor < 0,
      next fill s = ⟨.elem e,
        { s with cap := max s.cap s.buf_size, buf := rest, is_done := true },
        [(max s.cap s.buf_size, s.cursor)]⟩ := by
    intro hec
    simp [next, afterFill, h1, h2, hok, hn, hk, hcap, hdata, hec, hd1,
      FastlyStatus.is_err, FastlyStatus.is_ok]
  refine ⟨hneg, ?_, ?_, ?_⟩
  · intro ec hec h0 hle hgt
    have hd2 := drainStep_decomp
      ⟨s.term, e ++ s.term :: rest, max s.cap s.buf_size, s.buf_size,
        s.max_buf_size, ec.toNat, false⟩ e rest he rfl
    have hnn : ¬(ec < 0) := Int.not_lt.mpr h0
    simp [next, afterFill, h1, h2, hok, hn, hk, hcap, hdata, hec, hnn,
      hle, hgt, hd2, FastlyStatus.is_err, FastlyStatus.is_ok]
  · intro ec hec h0 hbad
    have hnn : ¬(ec < 0) := Int.not_lt.mpr h0
    simp [next, afterFill, h1, h2, hok, hn, hk, hcap, hdata, hec, hnn,
      hbad, FastlyStatus.is_err, FastlyStatus.is_ok]
  · intro e2 rest2 hec hrest he2
    rw [hneg hec]
    have := next_drain fill
      { s with cap := max s.cap s.buf_size, buf := rest, is_done := true }
      e2 rest2 he2 (by simpa using hrest)
    simp [this]

/-- Witness for C5, exercising the non-negative ending-cursor clause: the
host returns ending_cursor 7 from input cursor 0, and the session's cursor
becomes 7. -/
theorem C5_ending_cursor_witness :
    next (fun _ c => if c = 0 then ⟨FastlyStatus.OK, 7, 2, [1, 0]⟩
        else ⟨FastlyStatus.OK, -1, 2, [2, 0]⟩)
      (MultiValueHostcall.new 0 16 none) =
      ⟨.elem [1],
        { MultiValueHostcall.new 0 16 none with cap := 16, buf := [], cursor := 7 },
        [(16, 0)]⟩ :=
  (C5_ending_cursor
    (fun _ c => if c = 0 then ⟨FastlyStatus.OK, 7, 2, [1, 0]⟩
      else ⟨FastlyStatus.OK, -1, 2, [2, 0]⟩)
    (MultiValueHostcall.new 0 16 none) 2 [1] [] rfl rfl rfl rfl
    (by decide) (by decide) rfl (by decide)).2.1 7 rfl
    (by decide) (by decide) (by decide)

/-- Any element produced by handling a successful fill is terminator-free
(it always goes through the drain step). -/
theorem afterFill_elem_noterm (s : MultiValueHostcall) (r : FillResult)
    (e : List Nat) (h : (afterFill s r).1 = .elem e) : s.term ∉ e := by
  simp only [afterFill] at h
  repeat' split at h
  all_goals
    first
      | simpa using drainStep_elem_noterm _ e h
      | simp at h

/-- C6: on the drain path, every yielded element is exactly the prefix of
the internal buffer up to but excluding the first occurrence of the
terminator byte, and that terminator byte is consumed before returning; a
nonempty buffer containing no terminator byte causes a panic rather than a
recoverable error; and no call to `next`, on any state and any host, ever
yields an element containing the terminator. -/
theorem C6_drain_path (fill : Fill) (s : MultiValueHostcall)
    (hne : s.buf ≠ []) :
    (∀ e rest, s.term ∉ e → s.buf = e ++ s.term :: rest →
      next fill s = ⟨.elem e, { s with buf := rest }, []⟩) ∧
    (s.term ∉ s.buf →
      (next fill s).outcome = .panic .terminatorNotFound) ∧
    (∀ t : MultiValueHostcall, ∀ e : List Nat,
      (next fill t).outcome = .elem e → t.term ∉ e) := by
  refine ⟨fun e rest he hbuf => next_drain fill s e rest he hbuf, ?_, ?_⟩
  · intro hnoterm
    have hbe : ¬s.buf.isEmpty := by simp [hne]
    simp [next, hbe, drainStep_noterm s hnoterm]
  · intro t e h
    simp only [next] at h
    repeat' split at h
    all_goals
      first
        | (simp only [] at h
           simpa using afterFill_elem_noterm _ _ e h)
        | (simp only [] at h
           simpa using drainStep_elem_noterm _ e h)
        | simp at h

/-- Witness for C6: buffer [5, 0, 7, 0] with terminator 0 yields element
[5] and consumes the terminator, leaving [7, 0]. -/
theorem C6_drain_path_witness :
    next (fun _ _ => ⟨FastlyStatus.OK, -1, 0, []⟩)
        ⟨0, [5, 0, 7, 0], 16, 16, none, 0, false⟩ =
      ⟨.elem [5], ⟨0, [7, 0], 16, 16, none, 0, false⟩, []⟩ :=
  (C6_drain_path (fun _ _ => ⟨FastlyStatus.OK, -1, 0, []⟩)
    ⟨0, [5, 0, 7, 0], 16, 16, none, 0, false⟩ (by decide)).1
    [5] [7, 0] (by decide) rfl

/-- C7: within a single `next` step the reader makes at most two host calls
(at most one growth retry); when growth is eligible the retry requests
exactly the host-reported required size (buf_size becomes that size), and
if the retried call returns BUFLEN again the reader panics via the
assertion rather than returning a typed error, while a retry failing with
any other error status is yielded as a ClosureError wrapping that status
and marks the session finished. -/
theorem C7_single_retry (fill : Fill) (s : MultiValueHostcall) (n : Nat)
    (h1 : s.buf = []) (h2 : s.is_done = false)
    (hr : (fill (max s.cap s.buf_size) s.cursor).status = FastlyStatus.BUFLEN)
    (hn : (fill (max s.cap s.buf_size) s.cursor).nwritten = n) (hnz : n ≠ 0)
    (hgrow : (match s.max_buf_size with
      | some m => decide (n < m) | none => true) = true) :
    ((fill (max (max s.cap s.buf_size) n) s.cursor).status =
        FastlyStatus.BUFLEN →
      next fill s = ⟨.panic .wrongSizeRetry,
        { s with cap := max (max s.cap s.buf_size) n, buf_size := n },
        [(max s.cap s.buf_size, s.cursor),
          (max (max s.cap s.buf_size) n, s.cursor)]⟩) ∧
    (∀ st, (fill (max (max s.cap s.buf_size) n) s.cursor).status = st →
      st ≠ FastlyStatus.OK → st ≠ FastlyStatus.BUFLEN →
      next fill s = ⟨.err (.ClosureError st),
        { s with cap := max (max s.cap s.buf_size) n, buf_size := n, is_done := true },
        [(max s.cap s.buf_size, s.cursor),
          (max (max s.cap s.buf_size) n, s.cursor)]⟩) ∧
    (∀ (g : Fill) (t : MultiValueHostcall), (next g t).calls.length ≤ 2) := by
  refine ⟨?_, ?_, ?_⟩
  · intro hr2
    simp [next, h1, h2, hr, hn, hnz, hgrow, hr2, FastlyStatus.is_err,
      FastlyStatus.is_ok, FastlyStatus.BUFLEN, FastlyStatus.OK]
  · intro st hst hok hbl
    have hok4 : ¬(st = ({ code := 0 } : FastlyStatus)) := by
      simpa [FastlyStatus.OK] using hok
    have hbl4 : ¬(st = ({ code := 4 } : FastlyStatus)) := by
      simpa [FastlyStatus.BUFLEN] using hbl
    simp [next, h1, h2, hr, hn, hnz, hgrow, hst, hok4, hbl4,
      FastlyStatus.is_err, FastlyStatus.is_ok, FastlyStatus.BUFLEN,
      FastlyStatus.OK]
  · intro g t
    simp only [next]
    repeat' split
    all_goals simp

/-- Witness for C7: a host that always reports BUFLEN with required size 9
drives the reader into the wrong-size-retry panic after exactly two calls. -/
theorem C7_single_retry_witness :
    next (fun _ _ => ⟨FastlyStatus.BUFLEN, 0, 9, []⟩)
        (MultiValueHostcall.new 0 4 none) =
      ⟨.panic .wrongSizeRetry,
        { MultiValueHostcall.new 0 4 none with cap := 9, buf_size := 9 },
        [(4, 0), (9, 0)]⟩ :=
  (C7_single_retry (fun _ _ => ⟨FastlyStatus.BUFLEN, 0, 9, []⟩)
    (MultiValueHostcall.new 0 4 none) 9 rfl rfl rfl rfl (by decide) rfl).1 rfl

/-- C8: a source whose first fill call succeeds with bytes_written 0 yields
end-of-sequence immediately, with no element and no error, and the session
is marked finished so the following call makes no host call at all. -/
theorem C8_empty_source (fill : Fill) (s : MultiValueHostcall)
    (h1 : s.buf = []) (h2 : s.is_done = false)
    (hok : (fill (max s.cap s.buf_size) s.cursor).status = FastlyStatus.OK)
    (hn : (fill (max s.cap s.buf_size) s.cursor).nwritten = 0) :
    next fill s = ⟨.done,
      { s with cap := max s.cap s.buf_size, is_done := true },
      [(max s.cap s.buf_size, s.cursor)]⟩ ∧
    next fill (next fill s).state = ⟨.done, (next fill s).state, []⟩ := by
  have hmain : next fill s = ⟨.done,
      { s with cap := max s.cap s.buf_size, is_done := true },
      [(max s.cap s.buf_size, s.cursor)]⟩ := by
    simp [next, afterFill, h1, h2, hok, hn, FastlyStatus.is_err,
      FastlyStatus.is_ok]
  refine ⟨hmain, ?_⟩
  rw [hmain]
  exact next_finished fill _ h1 rfl

/-- Witness for C8. -/
theorem C8_empty_source_witness :
    next (fun _ _ => ⟨FastlyStatus.OK, -1, 0, []⟩)
        (MultiValueHostcall.new 0 16 none) =
      ⟨.done, { MultiValueHostcall.new 0 16 none with cap := 16, is_done := true },
        [(16, 0)]⟩ ∧
    next (fun _ _ => ⟨FastlyStatus.OK, -1, 0, []⟩)
        (next (fun _ _ => ⟨FastlyStatus.OK, -1, 0, []⟩)
          (MultiValueHostcall.new 0 16 none)).state =
      ⟨.done, (next (fun _ _ => ⟨FastlyStatus.OK, -1, 0, []⟩)
          (MultiValueHostcall.new 0 16 none)).state, []⟩ :=
  C8_empty_source (fun _ _ => ⟨FastlyStatus.OK, -1, 0, []⟩)
    (MultiValueHostcall.new 0 16 none) rfl rfl rfl rfl

/-- C9: handling any successful fill checks `bytes_written <= capacity`
before setting the buffer's logical length: whenever the host claims more
bytes than the buffer's capacity, the step panics via the assertion (and
the buffer content is not exposed), both in general (through `afterFill`,
which every successful fill is routed through) and for a fresh session's
first fill. -/
theorem C9_nwritten_check (fill : Fill) (s : MultiValueHostcall) (k : Nat)
    (h1 : s.buf = []) (h2 : s.is_done = false)
    (hok : (fill (max s.cap s.buf_size) s.cursor).status = FastlyStatus.OK)
    (hn : (fill (max s.cap s.buf_size) s.cursor).nwritten = k)
    (hk : k ≠ 0) (hbig : max s.cap s.buf_size < k) :
    (next fill s).outcome = .panic .invalidNwritten ∧
    (next fill s).state.buf = [] ∧
    (∀ (t : MultiValueHostcall) (r : FillResult), r.nwritten ≠ 0 →
      t.cap < r.nwritten → afterFill t r = (.panic .invalidNwritten, t)) := by
  have hgen : ∀ (t : MultiValueHostcall) (r : FillResult), r.nwritten ≠ 0 →
      t.cap < r.nwritten → afterFill t r = (.panic .invalidNwritten, t) := by
    intro t r hnz hlt
    have hnle : ¬(r.nwritten ≤ t.cap) := Nat.not_le.mpr hlt
    simp [afterFill, hnz, hnle]
  have hnle : ¬(k ≤ max s.cap s.buf_size) := Nat.not_le.mpr hbig
  refine ⟨?_, ?_, hgen⟩ <;>
    simp [next, afterFill, h1, h2, hok, hn, hk, hnle,
      FastlyStatus.is_err, FastlyStatus.is_ok]

/-- Witness for C9: the host claims 20 bytes written into a buffer of
capacity 16. -/
theorem C9_nwritten_check_witness :
    (next (fun _ _ => ⟨FastlyStatus.OK, -1, 20, []⟩)
        (MultiValueHostcall.new 0 16 none)).outcome =
      .panic .invalidNwritten ∧
    (next (fun _ _ => ⟨FastlyStatus.OK, -1, 20, []⟩)
        (MultiValueHostcall.new 0 16 none)).state.buf = [] ∧
    (∀ (t : MultiValueHostcall) (r : FillResult), r.nwritten ≠ 0 →
      t.cap < r.nwritten → afterFill t r = (.panic .invalidNwritten, t)) :=
  C9_nwritten_check (fun _ _ => ⟨FastlyStatus.OK, -1, 20, []⟩)
    (MultiValueHostcall.new 0 16 none) 20 rfl rfl rfl rfl
    (by decide) (by decide)

/-- Enum `BufferKind` (src/fastly/src/error.rs, lines 10-21). -/
inductive BufferKind where
  | Geo
  | HeaderName
  | HeaderValue
  | HttpMethod
  | Url
deriving DecidableEq, Repr

/-- Struct `BufferSizeError` (src/fastly/src/error.rs, lines 53-66). -/
structure BufferSizeError where
  buf_size : Nat
  needed_buf_size : Nat
  buffer_kind : BufferKind
deriving DecidableEq, Repr

/-- Constructor `BufferSizeError::new` (error.rs lines 70-76). -/
def BufferSizeError.mkNew (buf_size needed_buf_size : Nat)
    (buffer_kind : BufferKind) : BufferSizeError :=
  { buf_size := buf_size, needed_buf_size := needed_buf_size,
    buffer_kind := buffer_kind }

/-- Constructor `BufferSizeError::header_name` (error.rs lines 84-86). -/
def BufferSizeError.header_name (buf_size needed_buf_size : Nat) :
    BufferSizeError :=
  BufferSizeError.mkNew buf_size needed_buf_size BufferKind.HeaderName

/-- Constructor `BufferSizeError::header_value` (error.rs lines 89-91). -/
def BufferSizeError.header_value (buf_size needed_buf_size : Nat) :
    BufferSizeError :=
  BufferSizeError.mkNew buf_size needed_buf_size BufferKind.HeaderValue

/-- An item produced by a call-site adapter after its `.map` closure:
either a converted value (conversion to HeaderName / HeaderValue / String
is modelled as the identity on the raw bytes, eliding validation), a
`BufferSizeError`, or a panic. -/
inductive AdapterItem where
  | ok (bytes : List Nat)
  | err (e : BufferSizeError)
  | panic (msg : PanicMsg)
deriving DecidableEq, Repr

/-- The `.map` closure of `RequestHandle::get_header_names_impl`
(handle.rs lines 169-185): Ok bytes are converted, BufferTooSmall becomes
`BufferSizeError::header_name(max_buf_size.expect(..), needed_buf_size)`,
and ClosureError panics. -/
def headerNamesAdapterItem (max_buf_size : Option Nat) :
    Except MultiValueHostcallError (List Nat) → AdapterItem
  | .ok name_bytes => .ok name_bytes
  | .error (.BufferTooSmall needed_buf_size) =>
    match max_buf_size with
    | some m => .err (BufferSizeError.header_name m needed_buf_size)
    | none => .panic .maxBufSizeExpected
  | .error (.ClosureError _) => .panic .adapterClosureError

/-- The `.map` closure of `RequestHandle::get_header_values_impl`
(handle.rs lines 273-291): BufferTooSmall becomes
`BufferSizeError::header_value(max_buf_size.expect(..), needed_buf_size)`. -/
def headerValuesAdapterItem (max_buf_size : Option Nat) :
    Except MultiValueHostcallError (List Nat) → AdapterItem
  | .ok value_bytes => .ok value_bytes
  | .error (.BufferTooSmall needed_buf_size) =>
    match max_buf_size with
    | some m => .err (BufferSizeError.header_value m needed_buf_size)
    | none => .panic .maxBufSizeExpected
  | .error (.ClosureError _) => .panic .adapterClosureError

/-- The `.map` closure of `client_original_header_names_impl` (handle.rs
lines 809-825).  Note: although this adapter enumerates header NAMES, the
source maps BufferTooSmall to `BufferSizeError::header_value(..)`. -/
def originalHeaderNamesAdapterItem (max_buf_size : Option Nat) :
    Except MultiValueHostcallError (List Nat) → AdapterItem
  | .ok name_bytes => .ok name_bytes
  | .error (.BufferTooSmall needed_buf_size) =>
    match max_buf_size with
    | some m => .err (BufferSizeError.header_value m needed_buf_size)
    | none => .panic .maxBufSizeExpected
  | .error (.ClosureError _) => .panic .adapterClosureError

/-- C10 evaluation at the failing input: for a reader-reported
BufferTooSmall with needed size 10 under max_buf_size 5, the header-name
and header-value adapters produce domain-appropriate BufferKinds, but the
original-header-names adapter tags its error with `BufferKind.HeaderValue`,
not `BufferKind.HeaderName` as the claim requires for a name
enumeration. -/
theorem C10_adapter_kinds :
    headerNamesAdapterItem (some 5) (.error (.BufferTooSmall 10)) =
      .err ⟨5, 10, BufferKind.HeaderName⟩ ∧
    headerValuesAdapterItem (some 5) (.error (.BufferTooSmall 10)) =
      .err ⟨5, 10, BufferKind.HeaderValue⟩ ∧
    originalHeaderNamesAdapterItem (some 5) (.error (.BufferTooSmall 10)) =
      .err ⟨5, 10, BufferKind.HeaderValue⟩ ∧
    originalHeaderNamesAdapterItem (some 5) (.error (.BufferTooSmall 10)) ≠
      .err ⟨5, 10, BufferKind.HeaderName⟩ := by
  refine ⟨rfl, rfl, rfl, ?_⟩
  decide
